import Mathlib

/-!
Verification of the Fintoc → Actual Budget synchronization tool
(`src/app.mjs`) against its natural-language specification.

The JavaScript source is embedded shallowly:

* A JS field that may be `undefined`/`null` is an `Option`; string/number
  defaulting with `||` is `jsOr` / `jsOrQ` (JS treats `""`, `0`, `null`,
  `undefined` as falsy).
* Numeric amounts are rationals (`ℚ`); the `typeof x === 'number'` guard
  becomes pattern matching on the `Option`.
* External effects (the Actual API, the Fintoc API, the file system) are
  parameters: an `Env` record supplies the outcome of each remote call, and
  the persisted mapping file is a `FileState`.
-/

namespace FintocActual

/-- JS string defaulting `a || b`: `undefined`, `null` and `""` are falsy. -/
def jsOr (o : Option String) (d : String) : String :=
  match o with
  | some s => if s = "" then d else s
  | none => d

/-- JS numeric defaulting `a || b`: `undefined`, `null` and `0` are falsy. -/
def jsOrQ (o : Option ℚ) (d : ℚ) : ℚ :=
  match o with
  | some q => if q = 0 then d else q
  | none => d

/-- A raw Fintoc account record: every field may be absent. -/
structure FintocAccount where
  id : Option String
  name : Option String
  type : Option String
  balance : Option ℚ
  currency : Option String
deriving DecidableEq, Repr

/-- A raw institution record attached to a link. -/
structure Institution where
  name : Option String
deriving DecidableEq, Repr

/-- The `{ account, institution }` pairs produced by `FintocService.getAccounts`. -/
structure FintocPair where
  account : FintocAccount
  institution : Option Institution
deriving DecidableEq, Repr

/-- The `Account` model of `app.mjs`: a Fintoc record (possibly `null`), an
institution (possibly `null`) and the Actual-side id (possibly `null`). -/
structure Account where
  fintoc : Option FintocAccount
  institution : Option Institution
  actualId : Option String
deriving DecidableEq, Repr

/-- `get id() { return this.fintoc?.id || ''; }` -/
def Account.id (a : Account) : String :=
  jsOr (a.fintoc.bind FintocAccount.id) ""

/-- `get name() { return this.fintoc?.name || ''; }` -/
def Account.name (a : Account) : String :=
  jsOr (a.fintoc.bind FintocAccount.name) ""

/-- `get type() { return this.fintoc?.type || ''; }` -/
def Account.type (a : Account) : String :=
  jsOr (a.fintoc.bind FintocAccount.type) ""

/-- `get balance() { return this.fintoc?.balance || 0; }` -/
def Account.balance (a : Account) : ℚ :=
  jsOrQ (a.fintoc.bind FintocAccount.balance) 0

/-- `get currency() { return this.fintoc?.currency || ''; }` -/
def Account.currency (a : Account) : String :=
  jsOr (a.fintoc.bind FintocAccount.currency) ""

/-- `get institutionName() { return this.institution?.name || 'Unknown'; }` -/
def Account.institutionName (a : Account) : String :=
  jsOr (a.institution.bind Institution.name) "Unknown"

/-- `get displayName() { return `${this.institutionName} - ${this.name}`; }` -/
def Account.displayName (a : Account) : String :=
  a.institutionName ++ " - " ++ a.name

/-- The object literal `typeMap` inside `getActualAccountType`. -/
def typeMap (t : String) : Option String :=
  if t = "checking_account" then some "checking"
  else if t = "sight_account" then some "checking"
  else if t = "savings_account" then some "savings"
  else if t = "line_of_credit" then some "credit"
  else if t = "credit_card" then some "credit"
  else none

/-- `getActualAccountType() { ... return typeMap[this.type] || 'other'; }`
(every mapped value is a non-empty string, so `||` is plain defaulting). -/
def Account.getActualAccountType (a : Account) : String :=
  (typeMap a.type).getD "other"

/-- `toActualFormat()` -/
def Account.toActualFormat (a : Account) : String × String :=
  (a.displayName, a.getActualAccountType)

/-- One entry of the persisted mapping document; a field of an arbitrary
persisted record may be absent, so each is an `Option`. -/
structure SavedAccount where
  fintocId : Option String
  name : Option String
  type : Option String
  balance : Option ℚ
  currency : Option String
  actualId : Option String
  institutionName : Option String
deriving DecidableEq, Repr

/-- `toJSON()`: serializes through the accessors, so every written field is
present (the Actual id is written as-is, `null` when never set). -/
def Account.toJSON (a : Account) : SavedAccount :=
  { fintocId := some a.id
    name := some a.name
    type := some a.type
    balance := some a.balance
    currency := some a.currency
    actualId := a.actualId
    institutionName := some a.institutionName }

/-- `static fromFintocData(data) { return new Account(data.account, data.institution); }` -/
def Account.fromFintocData (d : FintocPair) : Account :=
  { fintoc := some d.account, institution := d.institution, actualId := none }

/-- `static fromJSON(data, allFintocAccounts)`: look for a current Fintoc
account with `acc.account.id === data.fintocId`; rebuild from it keeping the
persisted `actualId`, else reconstruct purely from the snapshot. -/
def Account.fromJSON (d : SavedAccount) (allFintocAccounts : List FintocPair) : Account :=
  match allFintocAccounts.find? (fun acc => acc.account.id = d.fintocId) with
  | some m =>
      { Account.fromFintocData m with actualId := d.actualId }
  | none =>
      { fintoc := some
          { id := d.fintocId
            name := d.name
            type := d.type
            balance := d.balance
            currency := d.currency }
        institution := some { name := d.institutionName }
        actualId := d.actualId }

/-- `BudgetManager`: a budget name plus the list of mapped accounts. -/
structure BudgetManager where
  budgetName : String
  accounts : List Account
deriving DecidableEq, Repr

/-- `addAccount(account) { this.accounts.push(account); }` -/
def BudgetManager.addAccount (m : BudgetManager) (a : Account) : BudgetManager :=
  { m with accounts := m.accounts ++ [a] }

/-- `hasAccount(fintocId)`: the argument comes from a raw record, so it may be
absent; `acc.id === fintocId` holds only when it is that exact string. -/
def BudgetManager.hasAccount (m : BudgetManager) (fintocId : Option String) : Bool :=
  m.accounts.any (fun acc => some acc.id = fintocId)

/-- `getAccount(fintocId)` -/
def BudgetManager.getAccount (m : BudgetManager) (fintocId : Option String) : Option Account :=
  m.accounts.find? (fun acc => some acc.id = fintocId)

/-- The JSON document `save` writes: `{ budgetName, accounts: map(toJSON) }`.
A parsed document in general may lack either field. -/
structure JsonDoc where
  budgetName : Option String
  accounts : Option (List SavedAccount)
deriving DecidableEq, Repr

/-- `save(filePath)` serializes the manager; the document written to disk. -/
def BudgetManager.saveDoc (m : BudgetManager) : JsonDoc :=
  { budgetName := some m.budgetName
    accounts := some (m.accounts.map Account.toJSON) }

/-- State of the mapping file as `load` finds it: absent, unreadable or
unparsable, or parsed into a document. -/
inductive FileState where
  | missing
  | corrupt
  | content (doc : JsonDoc)
deriving DecidableEq, Repr

/-- `static async load(filePath, budgetName, fintocAccounts)`: a missing file
or a read/parse failure yields a fresh manager with the default name;
otherwise `data.budgetName || budgetName`, then `forEach`-add each entry of
`data.accounts` (when present and an array) through `Account.fromJSON`. -/
def BudgetManager.load (fs : FileState) (budgetName : String)
    (fintocAccounts : List FintocPair) : BudgetManager :=
  match fs with
  | .missing => { budgetName := budgetName, accounts := [] }
  | .corrupt => { budgetName := budgetName, accounts := [] }
  | .content d =>
      let m : BudgetManager := { budgetName := jsOr d.budgetName budgetName, accounts := [] }
      match d.accounts with
      | some l => l.foldl (fun m ad => m.addAccount (Account.fromJSON ad fintocAccounts)) m
      | none => m

/-- A Fintoc movement; any field of a raw record may be absent, and `amount`
is `some q` exactly when `typeof movement.amount === 'number'`. -/
structure Movement where
  id : Option String
  post_date : Option String
  amount : Option ℚ
  description : Option String
deriving DecidableEq, Repr

/-- The Actual-side transaction built inside `addTransactions`. -/
structure ActualTransaction where
  account : Option String
  date : Option String
  amount : ℚ
  imported_payee : String
  imported_id : String
  notes : String
deriving DecidableEq, Repr

/-- The per-movement mapping in `ActualService.addTransactions`:
`amount: typeof movement.amount === 'number' ? movement.amount * 100 : 0`,
`imported_payee`/`notes`: `String(movement.description || '')`,
`imported_id: movement.id || ''`. -/
def convertMovement (accountId : Option String) (m : Movement) : ActualTransaction :=
  { account := accountId
    date := m.post_date
    amount := match m.amount with
      | some q => q * 100
      | none => 0
    imported_payee := jsOr m.description ""
    imported_id := jsOr m.id ""
    notes := jsOr m.description "" }

/-- Which Actual API entry point a transaction submission used:
`importTransactions` (deduplicating import) or `addTransactions` (raw append). -/
inductive ApiCall where
  | importTx
  | addTx
deriving DecidableEq, Repr

/-- `ActualService.addTransactions(accountId, movements, isUpdate)`:
convert the movements (the `.filter(Boolean)` keeps every object), return 0
with no API call when nothing converted, otherwise submit through
`importTransactions` when `isUpdate` and `addTransactions` otherwise; an API
failure is caught and reported as 0. Returns the call made (if any) and the
reported count. -/
def ActualService.addTransactions (submitOk : Bool) (accountId : Option String)
    (movements : List Movement) (isUpdate : Bool) : Option ApiCall × Nat :=
  let transactions := movements.map (convertMovement accountId)
  if transactions.length = 0 then (none, 0)
  else
    let call := if isUpdate then ApiCall.importTx else ApiCall.addTx
    (some call, if submitOk then transactions.length else 0)

/-- Outcomes of the external calls a run makes: whether `loadBudget`
succeeds, the result of `createAccount` per source account (`none` = the call
throws), the movements `getMovements` yields per source account (its
`safeExecute` already turns a failure into `[]`), and whether the transaction
submission for a given Actual account id succeeds. -/
structure Env where
  loadBudgetOk : Bool
  createResult : FintocPair → Option String
  movementsFor : FintocAccount → List Movement
  submitOk : Option String → Bool

/-- One iteration of the account-creation loop of `updateExistingBudget`:
skip when `budgetManager.hasAccount(fintocId)`, otherwise call
`createAccount`; on success push the account (with its new Actual id), on
failure log and continue. The second component records each `createAccount`
call. -/
def updateCreateStep (env : Env) (st : BudgetManager × List FintocPair)
    (fd : FintocPair) : BudgetManager × List FintocPair :=
  if st.1.hasAccount fd.account.id then st
  else
    match env.createResult fd with
    | some aid =>
        ({ Account.fromFintocData fd with actualId := some aid } |> st.1.addAccount,
         st.2 ++ [fd])
    | none => (st.1, st.2 ++ [fd])

/-- One iteration of the transaction loop of `updateExistingBudget`: find the
matching Fintoc data by `data.account.id === account.id`; when found, fetch
movements and submit them with `isUpdate = true`, accumulating the API calls
made and the reported counts; otherwise warn and skip. -/
def updateTxStep (env : Env) (fintocAccounts : List FintocPair)
    (st : List ApiCall × Nat) (account : Account) : List ApiCall × Nat :=
  match fintocAccounts.find? (fun d => d.account.id = some account.id) with
  | some md =>
      let movements := env.movementsFor md.account
      let r := ActualService.addTransactions (env.submitOk account.actualId)
        account.actualId movements true
      (st.1 ++ r.1.toList, st.2 + r.2)
  | none => st

/-- Result of a run of the UPDATE path. -/
structure UpdateResult where
  manager : BudgetManager
  savedDoc : JsonDoc
  createCalls : List FintocPair
  submitCalls : List ApiCall
  totalTransactions : Nat

/-- `updateExistingBudget`: load the persisted mapping reconciled against the
current accounts, load the Actual budget (a failure there propagates:
`none`), create Actual accounts for unmapped source accounts, submit each
mapped account's movements as an import, and save the full mapping once at
the end. -/
def updateExistingBudget (env : Env) (fs : FileState) (budgetName : String)
    (fintocAccounts : List FintocPair) : Option UpdateResult :=
  let bm0 := BudgetManager.load fs budgetName fintocAccounts
  if env.loadBudgetOk then
    let created := fintocAccounts.foldl (updateCreateStep env) (bm0, [])
    let txs := created.1.accounts.foldl (updateTxStep env fintocAccounts) ([], 0)
    some { manager := created.1
           savedDoc := created.1.saveDoc
           createCalls := created.2
           submitCalls := txs.1
           totalTransactions := txs.2 }
  else none

/-- Result of a run of the CREATE path. -/
structure CreateResult where
  manager : BudgetManager
  savedDoc : JsonDoc
  totalAccounts : Nat
  totalTransactions : Nat
  submitCalls : List ApiCall

/-- One iteration of the account loop of `createNewBudget`: the whole block
(create account, fetch movements, add transactions with `isUpdate = false`)
is under one try/catch, and only `createAccount` can throw — a failure skips
just this account. -/
def createStep (env : Env) (st : CreateResult) (fd : FintocPair) : CreateResult :=
  match env.createResult fd with
  | none => st
  | some aid =>
      let account : Account := { Account.fromFintocData fd with actualId := some aid }
      let movements := env.movementsFor fd.account
      let r := ActualService.addTransactions (env.submitOk account.actualId)
        account.actualId movements false
      { st with
        manager := st.manager.addAccount account
        totalAccounts := st.totalAccounts + 1
        totalTransactions := st.totalTransactions + r.2
        submitCalls := st.submitCalls ++ r.1.toList }

/-- `createNewBudget`: inside the destination import scope, start from an
empty manager, process every source account, and save the mapping once at
the end. -/
def createNewBudget (env : Env) (budgetName : String)
    (fintocAccounts : List FintocPair) : CreateResult :=
  let init : CreateResult :=
    { manager := { budgetName := budgetName, accounts := [] }
      savedDoc := { budgetName := none, accounts := none }
      totalAccounts := 0
      totalTransactions := 0
      submitCalls := [] }
  let r := fintocAccounts.foldl (createStep env) init
  { r with savedDoc := r.manager.saveDoc }

/-! ## Helper lemmas -/

/-- `s || ''` is `s` for every string `s`. -/
theorem jsOr_some_empty (s : String) : jsOr (some s) "" = s := by
  by_cases h : s = "" <;> simp [jsOr, h]

/-- The account-adding fold of `load` appends exactly one reconciled account
per persisted entry and keeps the budget name. -/
theorem foldl_addAccount_spec (l : List SavedAccount) (fas : List FintocPair)
    (m : BudgetManager) :
    (l.foldl (fun m ad => m.addAccount (Account.fromJSON ad fas)) m).accounts
        = m.accounts ++ l.map (fun ad => Account.fromJSON ad fas) ∧
    (l.foldl (fun m ad => m.addAccount (Account.fromJSON ad fas)) m).budgetName
        = m.budgetName := by
  induction l generalizing m with
  | nil => simp
  | cons ad rest ih =>
      obtain ⟨ha, hn⟩ := ih (m.addAccount (Account.fromJSON ad fas))
      refine ⟨?_, ?_⟩
      · simp only [List.foldl_cons]
        rw [ha]
        simp [BudgetManager.addAccount, List.append_assoc]
      · simpa [BudgetManager.addAccount] using hn

/-- On a parsed document, `load` takes `data.budgetName || budgetName` and
maps every entry of `data.accounts` (when it is an array) through
`Account.fromJSON`. -/
theorem load_content_spec (doc : JsonDoc) (name : String) (fas : List FintocPair) :
    (BudgetManager.load (FileState.content doc) name fas).budgetName
        = jsOr doc.budgetName name ∧
    ∀ l, doc.accounts = some l →
      (BudgetManager.load (FileState.content doc) name fas).accounts
        = l.map (fun ad => Account.fromJSON ad fas) := by
  obtain ⟨bn, accs⟩ := doc
  constructor
  · cases accs with
    | none => rfl
    | some l =>
        simpa [BudgetManager.load] using (foldl_addAccount_spec l fas _).2
  · intro l hl
    simp only [JsonDoc.accounts] at hl
    subst hl
    simpa [BudgetManager.load] using (foldl_addAccount_spec l fas _).1

/-- Reconciling a serialized account against any current source list keeps
its source id and its destination id. -/
theorem fromJSON_toJSON_identity (a : Account) (fas : List FintocPair) :
    (Account.fromJSON a.toJSON fas).id = a.id ∧
    (Account.fromJSON a.toJSON fas).actualId = a.actualId := by
  simp only [Account.fromJSON, Account.toJSON]
  cases hfind : fas.find? (fun acc => acc.account.id = some a.id) with
  | none =>
      simp only [hfind]
      exact ⟨by simp [Account.id, jsOr_some_empty], trivial⟩
  | some p =>
      have hp := List.find?_some hfind
      simp only [decide_eq_true_eq] at hp
      simp only [hfind]
      exact ⟨by simp [Account.id, Account.fromFintocData, hp, jsOr_some_empty], trivial⟩

/-! ## Claim C1: the account-type lookup table -/

/-- Claim C1: `getActualAccountType` maps each of the five source kinds in
the lookup table to its destination kind and every other kind to `"other"`;
being a total function of the account, it never errors. -/
theorem c1_account_type_table (a : Account) :
    (a.type = "checking_account" → a.getActualAccountType = "checking") ∧
    (a.type = "sight_account" → a.getActualAccountType = "checking") ∧
    (a.type = "savings_account" → a.getActualAccountType = "savings") ∧
    (a.type = "line_of_credit" → a.getActualAccountType = "credit") ∧
    (a.type = "credit_card" → a.getActualAccountType = "credit") ∧
    (a.type ∉ ["checking_account", "sight_account", "savings_account",
        "line_of_credit", "credit_card"] →
      a.getActualAccountType = "other") := by
  refine ⟨?_, ?_, ?_, ?_, ?_, ?_⟩ <;> intro h
  · simp [Account.getActualAccountType, typeMap, h]
  · simp [Account.getActualAccountType, typeMap, h]
  · simp [Account.getActualAccountType, typeMap, h]
  · simp [Account.getActualAccountType, typeMap, h]
  · simp [Account.getActualAccountType, typeMap, h]
  · simp only [List.mem_cons, List.not_mem_nil, or_false, not_or] at h
    obtain ⟨h1, h2, h3, h4, h5⟩ := h
    simp [Account.getActualAccountType, typeMap, h1, h2, h3, h4, h5]

/-- Witness for C1 at two concrete accounts: a `checking_account` maps to
`"checking"` and an unlisted `"wallet"` kind falls back to `"other"`. -/
theorem c1_account_type_table_witness :
    Account.type ⟨some ⟨none, none, some "checking_account", none, none⟩, none, none⟩
        = "checking_account" ∧
    Account.getActualAccountType
        ⟨some ⟨none, none, some "checking_account", none, none⟩, none, none⟩ = "checking" ∧
    Account.type ⟨some ⟨none, none, some "wallet", none, none⟩, none, none⟩ ∉
      ["checking_account", "sight_account", "savings_account",
        "line_of_credit", "credit_card"] ∧
    Account.getActualAccountType
        ⟨some ⟨none, none, some "wallet", none, none⟩, none, none⟩ = "other" :=
  ⟨by decide,
   (c1_account_type_table _).1 (by decide),
   by decide,
   (c1_account_type_table _).2.2.2.2.2 (by decide)⟩

/-! ## Claim C2: reconciliation keeps the destination id on a source match -/

/-- Claim C2: reconciling a persisted record against a source list that
contains an account with the record's source id finds such an account and
rebuilds the result from that fresh source data, keeping the persisted
destination id. -/
theorem c2_reconcile_preserves_destination (d : SavedAccount)
    (all : List FintocPair) (sid : String)
    (hid : d.fintocId = some sid)
    (hmem : ∃ p ∈ all, p.account.id = some sid) :
    ∃ p, all.find? (fun acc => acc.account.id = d.fintocId) = some p ∧
      p.account.id = some sid ∧
      Account.fromJSON d all = { Account.fromFintocData p with actualId := d.actualId } ∧
      (Account.fromJSON d all).actualId = d.actualId := by
  have hsome : (all.find? (fun acc => acc.account.id = d.fintocId)).isSome := by
    rw [List.find?_isSome]
    obtain ⟨p, hp, hpid⟩ := hmem
    exact ⟨p, hp, by simp [hid, hpid]⟩
  obtain ⟨p, hfind⟩ := Option.isSome_iff_exists.mp hsome
  have hp := List.find?_some hfind
  simp only [decide_eq_true_eq] at hp
  refine ⟨p, hfind, by rw [hp, hid], ?_, ?_⟩
  · simp [Account.fromJSON, hfind]
  · simp [Account.fromJSON, hfind]

/-- Witness for C2: a concrete record whose source id `"f1"` is present in
the current list keeps its persisted destination id `"A1"`. -/
theorem c2_reconcile_preserves_destination_witness :
    ∃ p, List.find?
        (fun acc => acc.account.id =
          (SavedAccount.mk (some "f1") (some "Old") (some "checking_account")
            (some 1) (some "CLP") (some "A1") (some "OldBank")).fintocId)
        [FintocPair.mk ⟨some "f1", some "Fresh", some "savings_account",
            some 2, some "CLP"⟩ (some ⟨some "Bank"⟩)] = some p ∧
      p.account.id = some "f1" ∧
      Account.fromJSON
          (SavedAccount.mk (some "f1") (some "Old") (some "checking_account")
            (some 1) (some "CLP") (some "A1") (some "OldBank"))
          [FintocPair.mk ⟨some "f1", some "Fresh", some "savings_account",
              some 2, some "CLP"⟩ (some ⟨some "Bank"⟩)]
        = { Account.fromFintocData p with actualId := some "A1" } ∧
      (Account.fromJSON
          (SavedAccount.mk (some "f1") (some "Old") (some "checking_account")
            (some 1) (some "CLP") (some "A1") (some "OldBank"))
          [FintocPair.mk ⟨some "f1", some "Fresh", some "savings_account",
              some 2, some "CLP"⟩ (some ⟨some "Bank"⟩)]).actualId = some "A1" :=
  c2_reconcile_preserves_destination _ _ "f1" rfl
    ⟨FintocPair.mk ⟨some "f1", some "Fresh", some "savings_account",
        some 2, some "CLP"⟩ (some ⟨some "Bank"⟩), by simp, rfl⟩

/-! ## Claim C3: reconciliation fallback and retention -/

/-- Claim C3: reconciling a persisted record whose source id is not in the
current source list reconstructs the account purely from the snapshot,
keeping the persisted destination id (even when it was never set); and
`load` never drops an entry: a parsed document's account list maps
one-for-one (in order) onto the loaded accounts. -/
theorem c3_reconcile_fallback_retention (d : SavedAccount) (all : List FintocPair)
    (doc : JsonDoc) (l : List SavedAccount) (name : String) (fas : List FintocPair)
    (hnone : ∀ p ∈ all, p.account.id ≠ d.fintocId) :
    (Account.fromJSON d all =
      { fintoc := some { id := d.fintocId, name := d.name, type := d.type,
                         balance := d.balance, currency := d.currency },
        institution := some { name := d.institutionName },
        actualId := d.actualId } ∧
      (Account.fromJSON d all).actualId = d.actualId) ∧
    (doc.accounts = some l →
      (BudgetManager.load (FileState.content doc) name fas).accounts.length = l.length ∧
      (BudgetManager.load (FileState.content doc) name fas).accounts
        = l.map (fun ad => Account.fromJSON ad fas)) := by
  have hfind : all.find? (fun acc => acc.account.id = d.fintocId) = none :=
    List.find?_eq_none.2 (fun p hp => by simpa using hnone p hp)
  refine ⟨⟨?_, ?_⟩, ?_⟩
  · simp [Account.fromJSON, hfind]
  · simp [Account.fromJSON, hfind]
  · intro hl
    have hmap := (load_content_spec doc name fas).2 l hl
    exact ⟨by rw [hmap]; simp, hmap⟩

/-- Witness for C3: a record for the unlinked source id `"gone"`, with its
destination id never set (`none`), survives reconciliation against a list
not containing it, and loading a one-entry document keeps that entry. -/
theorem c3_reconcile_fallback_retention_witness :
    (Account.fromJSON
        (SavedAccount.mk (some "gone") (some "N") (some "credit_card")
          (some 3) (some "CLP") none (some "Bank"))
        [FintocPair.mk ⟨some "f2", some "Other", some "checking_account",
            some 1, some "CLP"⟩ none]).actualId = none ∧
    (BudgetManager.load
        (FileState.content
          ⟨some "B", some [SavedAccount.mk (some "gone") (some "N") (some "credit_card")
            (some 3) (some "CLP") none (some "Bank")]⟩)
        "B" [FintocPair.mk ⟨some "f2", some "Other", some "checking_account",
            some 1, some "CLP"⟩ none]).accounts.length = 1 :=
  ⟨(c3_reconcile_fallback_retention _ _
      ⟨some "B", some [SavedAccount.mk (some "gone") (some "N") (some "credit_card")
        (some 3) (some "CLP") none (some "Bank")]⟩
      [SavedAccount.mk (some "gone") (some "N") (some "credit_card")
        (some 3) (some "CLP") none (some "Bank")]
      "B" [FintocPair.mk ⟨some "f2", some "Other", some "checking_account",
        some 1, some "CLP"⟩ none]
      (by intro p hp; simp at hp; subst hp; simp)).1.2,
   ((c3_reconcile_fallback_retention
      (SavedAccount.mk (some "gone") (some "N") (some "credit_card")
        (some 3) (some "CLP") none (some "Bank")) []
      ⟨some "B", some [SavedAccount.mk (some "gone") (some "N") (some "credit_card")
        (some 3) (some "CLP") none (some "Bank")]⟩
      [SavedAccount.mk (some "gone") (some "N") (some "credit_card")
        (some 3) (some "CLP") none (some "Bank")]
      "B" [FintocPair.mk ⟨some "f2", some "Other", some "checking_account",
        some 1, some "CLP"⟩ none]
      (by simp)).2 rfl).1⟩

/-! ## Claim C4: mapping-store round trip -/

/-- Counterexample to C4 as stated: the claim quantifies over every budget
name, but saving a manager whose budget name is the empty string and loading
it back (default name `"Default"`) yields the default, not the saved name,
because `load` takes `data.budgetName || budgetName` and `""` is falsy. -/
theorem c4_roundtrip_counterexample :
    (BudgetManager.load
        (FileState.content (BudgetManager.saveDoc
          { budgetName := "",
            accounts := [{ fintoc := none, institution := none, actualId := some "a1" }] }))
        "Default" []).budgetName
      ≠ ({ budgetName := "",
           accounts := [{ fintoc := none, institution := none, actualId := some "a1" }] }
          : BudgetManager).budgetName := by
  have h : (BudgetManager.load
      (FileState.content (BudgetManager.saveDoc
        { budgetName := "",
          accounts := [{ fintoc := none, institution := none, actualId := some "a1" }] }))
      "Default" []).budgetName = "Default" := rfl
  rw [h]
  decide

/-- Claim C4 (amended): for every budget manager with a non-empty account
list, saving and loading back (any current source list) preserves the budget
name — provided the budget name is non-empty or the default name supplied to
`load` equals it — and always preserves the identities (source id,
destination id) of every account, in order. -/
theorem c4_roundtrip_amended (m : BudgetManager) (defaultName : String)
    (fas : List FintocPair)
    (hname : m.budgetName ≠ "" ∨ defaultName = m.budgetName)
    (hacc : m.accounts ≠ []) :
    (BudgetManager.load (FileState.content m.saveDoc) defaultName fas).budgetName
        = m.budgetName ∧
    (BudgetManager.load (FileState.content m.saveDoc) defaultName fas).accounts.map
        (fun a => (a.id, a.actualId))
      = m.accounts.map (fun a => (a.id, a.actualId)) := by
  constructor
  · rw [(load_content_spec m.saveDoc defaultName fas).1]
    rcases hname with h | h
    · simp [BudgetManager.saveDoc, jsOr, h]
    · subst h
      by_cases h0 : m.budgetName = "" <;> simp [BudgetManager.saveDoc, jsOr, h0]
  · rw [(load_content_spec m.saveDoc defaultName fas).2 (m.accounts.map Account.toJSON)
      (by simp [BudgetManager.saveDoc])]
    rw [List.map_map, List.map_map]
    apply List.map_congr_left
    intro a _
    simp only [Function.comp_apply]
    have := fromJSON_toJSON_identity a fas
    simp [this.1, this.2]

/-- Witness for C4 (amended) at a concrete one-account manager. -/
theorem c4_roundtrip_amended_witness :
    (BudgetManager.load
        (FileState.content (BudgetManager.saveDoc
          { budgetName := "My Budget",
            accounts := [{ fintoc := none, institution := none, actualId := some "A1" }] }))
        "Other" []).budgetName = "My Budget" ∧
    (BudgetManager.load
        (FileState.content (BudgetManager.saveDoc
          { budgetName := "My Budget",
            accounts := [{ fintoc := none, institution := none, actualId := some "A1" }] }))
        "Other" []).accounts.map (fun a => (a.id, a.actualId))
      = [({ fintoc := none, institution := none, actualId := some "A1" } : Account)].map
          (fun a => (a.id, a.actualId)) :=
  c4_roundtrip_amended
    { budgetName := "My Budget",
      accounts := [{ fintoc := none, institution := none, actualId := some "A1" }] }
    "Other" [] (Or.inl (by decide)) (by simp)

/-! ## Claim C5: loading a missing or corrupt mapping file -/

/-- Claim C5: `BudgetManager.load` on a missing file, or on a file whose
content does not parse, returns a manager with the supplied default budget
name and zero accounts; the failure never propagates (the function is
total). -/
theorem c5_load_default_on_failure (fs : FileState) (budgetName : String)
    (fintocAccounts : List FintocPair)
    (h : fs = FileState.missing ∨ fs = FileState.corrupt) :
    (BudgetManager.load fs budgetName fintocAccounts).budgetName = budgetName ∧
    (BudgetManager.load fs budgetName fintocAccounts).accounts.length = 0 := by
  rcases h with h | h <;> subst h <;> exact ⟨rfl, rfl⟩

/-- Witness for C5: a concrete missing file yields the default name and no
accounts. -/
theorem c5_load_default_on_failure_witness :
    (BudgetManager.load FileState.missing "My Budget" []).budgetName = "My Budget" ∧
    (BudgetManager.load FileState.missing "My Budget" []).accounts.length = 0 :=
  c5_load_default_on_failure FileState.missing "My Budget" [] (Or.inl rfl)

/-! ## Claim C6: amount conversion -/

/-- Claim C6: converting a movement scales a numeric amount by 100 and
preserves its sign, and converts a missing or non-numeric amount to 0. -/
theorem c6_amount_scaling (accountId : Option String) (m : Movement) :
    (∀ q : ℚ, m.amount = some q →
      (convertMovement accountId m).amount = q * 100 ∧
      (0 < q → 0 < (convertMovement accountId m).amount) ∧
      (q < 0 → (convertMovement accountId m).amount < 0)) ∧
    (m.amount = none → (convertMovement accountId m).amount = 0) := by
  constructor
  · intro q hq
    have hv : (convertMovement accountId m).amount = q * 100 := by
      simp [convertMovement, hq]
    refine ⟨hv, ?_, ?_⟩
    · intro hpos
      rw [hv]
      exact mul_pos hpos (by norm_num)
    · intro hneg
      rw [hv]
      exact mul_neg_of_neg_of_pos hneg (by norm_num)
  · intro hn
    simp [convertMovement, hn]

/-- Witness for C6: a movement with amount `12.5` converts to `1250`, and a
movement with a missing amount converts to `0`. -/
theorem c6_amount_scaling_witness :
    (convertMovement (some "acc1")
      ⟨some "mov1", some "2024-01-02", some (12.5 : ℚ), some "coffee"⟩).amount = 1250 ∧
    (convertMovement (some "acc1")
      ⟨some "mov2", some "2024-01-03", none, some "fee"⟩).amount = 0 := by
  constructor
  · have h := ((c6_amount_scaling (some "acc1")
      ⟨some "mov1", some "2024-01-02", some (12.5 : ℚ), some "coffee"⟩).1
      (12.5 : ℚ) rfl).1
    rw [h]
    norm_num
  · exact (c6_amount_scaling (some "acc1")
      ⟨some "mov2", some "2024-01-03", none, some "fee"⟩).2 rfl

/-! ## Claim C7: transaction field mapping and choice of API call -/

/-- Which API call `addTransactions` makes: none when nothing converted,
otherwise import on the update path and raw add on the create path. -/
theorem addTransactions_call (ok : Bool) (accId : Option String)
    (movements : List Movement) (isUpdate : Bool) :
    (ActualService.addTransactions ok accId movements isUpdate).1
      = if movements.length = 0 then none
        else some (if isUpdate then ApiCall.importTx else ApiCall.addTx) := by
  unfold ActualService.addTransactions
  simp only [List.length_map, List.length_eq_zero]
  split <;> rfl

/-- Any call recorded by `addTransactions` carries the flag it was invoked
with. -/
theorem mem_addTransactions_toList (ok : Bool) (accId : Option String)
    (movements : List Movement) (isUpdate : Bool) (c : ApiCall)
    (hc : c ∈ (ActualService.addTransactions ok accId movements isUpdate).1.toList) :
    c = (if isUpdate then ApiCall.importTx else ApiCall.addTx) := by
  rw [addTransactions_call] at hc
  split at hc <;> simp_all

/-- Every call the update-path transaction loop records is an import. -/
theorem updateTx_fold_calls (env : Env) (fas : List FintocPair)
    (accounts : List Account) (st : List ApiCall × Nat)
    (h : ∀ c ∈ st.1, c = ApiCall.importTx) :
    ∀ c ∈ (accounts.foldl (updateTxStep env fas) st).1, c = ApiCall.importTx := by
  induction accounts generalizing st with
  | nil => exact h
  | cons a rest ih =>
      apply ih
      unfold updateTxStep
      cases hfind : fas.find? (fun dd => dd.account.id = some a.id) with
      | none => simpa [hfind] using h
      | some md =>
          simp only [hfind]
          intro c hc
          rw [List.mem_append] at hc
          rcases hc with hc | hc
          · exact h c hc
          · simpa using mem_addTransactions_toList _ _ _ true c hc

/-- Every call the create-path account loop records is a raw add. -/
theorem createStep_fold_calls (env : Env) (fas : List FintocPair) (st : CreateResult)
    (h : ∀ c ∈ st.submitCalls, c = ApiCall.addTx) :
    ∀ c ∈ (fas.foldl (createStep env) st).submitCalls, c = ApiCall.addTx := by
  induction fas generalizing st with
  | nil => exact h
  | cons fd rest ih =>
      apply ih
      unfold createStep
      cases hcr : env.createResult fd with
      | none => simpa [hcr] using h
      | some aid =>
          simp only [hcr]
          intro c hc
          rw [List.mem_append] at hc
          rcases hc with hc | hc
          · exact h c hc
          · simpa using mem_addTransactions_toList _ _ _ false c hc

/-- Claim C7: every converted movement carries `imported_id = id` and
`imported_payee = notes = description`; a non-empty submission uses the
deduplicating import exactly when `isUpdate` is true and the raw append
exactly when it is false; the UPDATE path only ever records import calls and
the CREATE path only ever records raw-add calls. -/
theorem c7_transaction_identity_and_calls :
    (∀ (accId : Option String) (m : Movement) (i : String), m.id = some i →
      (convertMovement accId m).imported_id = i) ∧
    (∀ (accId : Option String) (m : Movement) (dsc : String), m.description = some dsc →
      (convertMovement accId m).imported_payee = dsc ∧
      (convertMovement accId m).notes = dsc) ∧
    (∀ (ok : Bool) (accId : Option String) (movements : List Movement),
      movements ≠ [] →
      (ActualService.addTransactions ok accId movements true).1 = some ApiCall.importTx ∧
      (ActualService.addTransactions ok accId movements false).1 = some ApiCall.addTx) ∧
    (∀ (env : Env) (fs : FileState) (name : String) (fas : List FintocPair)
        (r : UpdateResult), updateExistingBudget env fs name fas = some r →
      ∀ c ∈ r.submitCalls, c = ApiCall.importTx) ∧
    (∀ (env : Env) (name : String) (fas : List FintocPair),
      ∀ c ∈ (createNewBudget env name fas).submitCalls, c = ApiCall.addTx) := by
  refine ⟨?_, ?_, ?_, ?_, ?_⟩
  · intro accId m i h
    simp [convertMovement, h, jsOr_some_empty]
  · intro accId m dsc h
    constructor <;> simp [convertMovement, h, jsOr_some_empty]
  · intro ok accId movements h
    constructor <;> rw [addTransactions_call] <;> simp [List.length_eq_zero, h]
  · intro env fs name fas r hr
    unfold updateExistingBudget at hr
    split at hr
    · rw [Option.some_inj] at hr
      subst hr
      exact updateTx_fold_calls env fas _ ([], 0) (by simp)
    · exact absurd hr (by simp)
  · intro env name fas
    unfold createNewBudget
    simp only []
    exact createStep_fold_calls env fas _ (by simp)

/-- Witness for C7 at a concrete movement, a concrete one-movement
submission, and concrete runs of both paths. -/
theorem c7_transaction_identity_and_calls_witness :
    (convertMovement (some "acc1")
      ⟨some "mv9", some "2024-02-03", some 7, some "lunch"⟩).imported_id = "mv9" ∧
    (convertMovement (some "acc1")
      ⟨some "mv9", some "2024-02-03", some 7, some "lunch"⟩).imported_payee = "lunch" ∧
    (convertMovement (some "acc1")
      ⟨some "mv9", some "2024-02-03", some 7, some "lunch"⟩).notes = "lunch" ∧
    (ActualService.addTransactions true (some "acc1")
      [⟨some "mv9", some "2024-02-03", some 7, some "lunch"⟩] true).1
        = some ApiCall.importTx ∧
    (ActualService.addTransactions true (some "acc1")
      [⟨some "mv9", some "2024-02-03", some 7, some "lunch"⟩] false).1
        = some ApiCall.addTx ∧
    (∀ c ∈ (UpdateResult.mk ⟨"B", []⟩ ⟨some "B", some []⟩ [] [] 0).submitCalls,
      c = ApiCall.importTx) ∧
    (∀ c ∈ (createNewBudget ⟨true, fun _ => some "A1", fun _ => [], fun _ => true⟩
        "B" []).submitCalls, c = ApiCall.addTx) := by
  refine ⟨?_, ?_, ?_, ?_, ?_, ?_, ?_⟩
  · exact c7_transaction_identity_and_calls.1 (some "acc1") _ "mv9" rfl
  · exact (c7_transaction_identity_and_calls.2.1 (some "acc1") _ "lunch" rfl).1
  · exact (c7_transaction_identity_and_calls.2.1 (some "acc1") _ "lunch" rfl).2
  · exact (c7_transaction_identity_and_calls.2.2.1 true (some "acc1") _ (by simp)).1
  · exact (c7_transaction_identity_and_calls.2.2.1 true (some "acc1") _ (by simp)).2
  · exact c7_transaction_identity_and_calls.2.2.2.1
      ⟨true, fun _ => some "A1", fun _ => [], fun _ => true⟩
      FileState.missing "B" [] _ rfl
  · exact c7_transaction_identity_and_calls.2.2.2.2
      ⟨true, fun _ => some "A1", fun _ => [], fun _ => true⟩ "B" []

/-! ## Fold lemmas for the UPDATE and CREATE account loops -/

/-- One step of the update-path creation loop only appends accounts, keeps
the budget name, and appends at most one create call. -/
theorem updateCreateStep_shape (env : Env) (st : BudgetManager × List FintocPair)
    (fd : FintocPair) :
    ∃ extra calls,
      (updateCreateStep env st fd).1.accounts = st.1.accounts ++ extra ∧
      (updateCreateStep env st fd).1.budgetName = st.1.budgetName ∧
      (updateCreateStep env st fd).2 = st.2 ++ calls := by
  unfold updateCreateStep
  by_cases hh : st.1.hasAccount fd.account.id
  · exact ⟨[], [], by simp [hh], by simp [hh], by simp [hh]⟩
  · cases hcr : env.createResult fd with
    | some aid =>
        refine ⟨[{ Account.fromFintocData fd with actualId := some aid }], [fd],
          ?_, ?_, ?_⟩ <;> simp [hh, hcr, BudgetManager.addAccount]
    | none => exact ⟨[], [fd], by simp [hh, hcr], by simp [hh, hcr], by simp [hh, hcr]⟩

/-- The update-path creation loop only appends accounts, keeps the budget
name, and only appends create calls. -/
theorem updateCreate_fold_frame (env : Env) (fas : List FintocPair)
    (st : BudgetManager × List FintocPair) :
    ∃ rest calls,
      (fas.foldl (updateCreateStep env) st).1.accounts = st.1.accounts ++ rest ∧
      (fas.foldl (updateCreateStep env) st).1.budgetName = st.1.budgetName ∧
      (fas.foldl (updateCreateStep env) st).2 = st.2 ++ calls := by
  induction fas generalizing st with
  | nil => exact ⟨[], [], by simp, rfl, by simp⟩
  | cons fd rest ih =>
      simp only [List.foldl_cons]
      obtain ⟨e1, c1, ha1, hb1, hc1⟩ := updateCreateStep_shape env st fd
      obtain ⟨e2, c2, ha2, hb2, hc2⟩ := ih (updateCreateStep env st fd)
      exact ⟨e1 ++ e2, c1 ++ c2,
        by rw [ha2, ha1, List.append_assoc],
        by rw [hb2, hb1],
        by rw [hc2, hc1, List.append_assoc]⟩

/-- The update-path creation loop calls `createAccount` exactly for the
source accounts not present in the initially loaded mapping, provided the
current source ids are present and pairwise distinct.  The state is
generalized: the running manager holds the loaded accounts plus extras whose
ids are disjoint from the remaining source ids. -/
theorem updateCreateStep_skip (env : Env) (st : BudgetManager × List FintocPair)
    (fd : FintocPair) (h : st.1.hasAccount fd.account.id = true) :
    updateCreateStep env st fd = st := by
  unfold updateCreateStep
  rw [if_pos h]

theorem updateCreateStep_create (env : Env) (st : BudgetManager × List FintocPair)
    (fd : FintocPair) (aid : String)
    (h : st.1.hasAccount fd.account.id = false)
    (hcr : env.createResult fd = some aid) :
    updateCreateStep env st fd
      = (st.1.addAccount { Account.fromFintocData fd with actualId := some aid },
         st.2 ++ [fd]) := by
  unfold updateCreateStep
  rw [if_neg (by simp [h]), hcr]

theorem updateCreateStep_fail (env : Env) (st : BudgetManager × List FintocPair)
    (fd : FintocPair)
    (h : st.1.hasAccount fd.account.id = false)
    (hcr : env.createResult fd = none) :
    updateCreateStep env st fd = (st.1, st.2 ++ [fd]) := by
  unfold updateCreateStep
  rw [if_neg (by simp [h]), hcr]

theorem updateCreate_fold_calls (env : Env) (fas : List FintocPair)
    (loaded bm : BudgetManager) (extra : List Account) (calls0 : List FintocPair)
    (hacc : bm.accounts = loaded.accounts ++ extra)
    (hpres : ∀ fd ∈ fas, (fd.account.id).isSome)
    (hnodup : (fas.map (fun fd => fd.account.id)).Nodup)
    (hdisj : ∀ a ∈ extra, ∀ fd ∈ fas, some a.id ≠ fd.account.id) :
    (fas.foldl (updateCreateStep env) (bm, calls0)).2
      = calls0 ++ fas.filter (fun fd => ! loaded.hasAccount fd.account.id) := by
  induction fas generalizing bm extra calls0 with
  | nil => simp
  | cons fd rest ih =>
      have hfd : bm.hasAccount fd.account.id = loaded.hasAccount fd.account.id := by
        unfold BudgetManager.hasAccount
        rw [hacc, List.any_append]
        have hextra : extra.any (fun acc => some acc.id = fd.account.id) = false := by
          rw [List.any_eq_false]
          intro a ha
          simpa using hdisj a ha fd (by simp)
        rw [hextra, Bool.or_false]
      have hpres' : ∀ fd' ∈ rest, (fd'.account.id).isSome :=
        fun fd' h => hpres fd' (by simp [h])
      have hnodup' : (rest.map (fun fd => fd.account.id)).Nodup := by
        simpa using (List.nodup_cons.mp (by simpa using hnodup)).2
      rw [List.foldl_cons]
      by_cases hh : loaded.hasAccount fd.account.id
      · rw [updateCreateStep_skip env (bm, calls0) fd (by rw [hfd]; exact hh)]
        rw [ih bm extra calls0 hacc hpres' hnodup'
          (fun a ha fd' h => hdisj a ha fd' (by simp [h]))]
        simp [List.filter_cons, hh]
      · have hfalse : loaded.hasAccount fd.account.id = false := by simpa using hh
        have hbmfalse : bm.hasAccount fd.account.id = false := by rw [hfd]; exact hfalse
        obtain ⟨s, hs⟩ := Option.isSome_iff_exists.mp (hpres fd (by simp))
        have hnotin : fd.account.id ∉ rest.map (fun fd => fd.account.id) :=
          (List.nodup_cons.mp (by simpa using hnodup)).1
        cases hcr : env.createResult fd with
        | some aid =>
            rw [updateCreateStep_create env (bm, calls0) fd aid hbmfalse hcr]
            have hid : ({ Account.fromFintocData fd with actualId := some aid }
                : Account).id = s := by
              simp [Account.id, Account.fromFintocData, hs, jsOr_some_empty]
            rw [ih (bm.addAccount { Account.fromFintocData fd with actualId := some aid })
              (extra ++ [{ Account.fromFintocData fd with actualId := some aid }])
              (calls0 ++ [fd])
              (by simp [BudgetManager.addAccount, hacc, List.append_assoc])
              hpres' hnodup' ?_]
            · simp [List.filter_cons, hfalse, List.append_assoc]
            · intro a ha fd' h
              rcases List.mem_append.mp ha with ha | ha
              · exact hdisj a ha fd' (by simp [h])
              · have haeq : a = { Account.fromFintocData fd with actualId := some aid } := by
                  simpa using ha
                subst haeq
                rw [hid]
                intro hcontra
                exact hnotin (by
                  rw [List.mem_map]
                  exact ⟨fd', h, by rw [← hcontra, hs]⟩)
        | none =>
            rw [updateCreateStep_fail env (bm, calls0) fd hbmfalse hcr]
            rw [ih bm extra (calls0 ++ [fd]) hacc hpres' hnodup'
              (fun a ha fd' h => hdisj a ha fd' (by simp [h]))]
            simp [List.filter_cons, hfalse, List.append_assoc]

/-- Two environments that agree on `createAccount` outcomes drive the
update-path creation loop identically: it never consults movements or
transaction submission. -/
theorem updateCreateStep_congr (env env' : Env)
    (hc : ∀ fd, env.createResult fd = env'.createResult fd) :
    updateCreateStep env = updateCreateStep env' := by
  funext st fd
  unfold updateCreateStep
  rw [hc fd]

/-- The create-path loop adds exactly the accounts whose own `createAccount`
call succeeds — each with its fresh destination id — and counts them. -/
theorem createStep_fold_accounts (env : Env) (fas : List FintocPair)
    (st : CreateResult) :
    (fas.foldl (createStep env) st).manager.accounts
      = st.manager.accounts
        ++ (fas.filter (fun fd => (env.createResult fd).isSome)).map
            (fun fd => { Account.fromFintocData fd with actualId := env.createResult fd }) ∧
    (fas.foldl (createStep env) st).totalAccounts
      = st.totalAccounts
        + (fas.filter (fun fd => (env.createResult fd).isSome)).length := by
  induction fas generalizing st with
  | nil => simp
  | cons fd rest ih =>
      simp only [List.foldl_cons]
      cases hcr : env.createResult fd with
      | none =>
          have hstep : createStep env st fd = st := by
            unfold createStep
            rw [hcr]
          rw [hstep]
          obtain ⟨h1, h2⟩ := ih st
          refine ⟨?_, ?_⟩ <;> simp [h1, h2, List.filter_cons, hcr]
      | some aid =>
          have hstep : (createStep env st fd).manager.accounts
                = st.manager.accounts
                  ++ [{ Account.fromFintocData fd with actualId := env.createResult fd }] ∧
              (createStep env st fd).totalAccounts = st.totalAccounts + 1 := by
            unfold createStep
            rw [hcr]
            exact ⟨by simp [BudgetManager.addAccount, hcr], rfl⟩
          obtain ⟨h1, h2⟩ := ih (createStep env st fd)
          refine ⟨?_, ?_⟩
          · rw [h1, hstep.1]
            simp [List.filter_cons, hcr, List.append_assoc]
          · rw [h2, hstep.2]
            simp [List.filter_cons, hcr]
            omega

/-! ## Claim C8: the UPDATE path creates exactly the unmapped accounts -/

/-- Claim C8: on the UPDATE path, `createAccount` is called exactly for the
current source accounts whose source id is not in the loaded mapping (source
ids present and pairwise distinct, per the data model), and the loaded
accounts — destination ids included — are carried into the final mapping
unchanged, as a prefix. -/
theorem c8_update_creates_exactly_new (env : Env) (fs : FileState) (name : String)
    (fas : List FintocPair)
    (hload : env.loadBudgetOk = true)
    (hpres : ∀ fd ∈ fas, (fd.account.id).isSome)
    (hnodup : (fas.map (fun fd => fd.account.id)).Nodup) :
    ∃ r, updateExistingBudget env fs name fas = some r ∧
      r.createCalls = fas.filter
        (fun fd => ! (BudgetManager.load fs name fas).hasAccount fd.account.id) ∧
      ∃ rest, r.manager.accounts
        = (BudgetManager.load fs name fas).accounts ++ rest := by
  unfold updateExistingBudget
  rw [if_pos hload]
  refine ⟨_, rfl, ?_, ?_⟩
  · show (fas.foldl (updateCreateStep env) (BudgetManager.load fs name fas, [])).2
        = fas.filter (fun fd => ! (BudgetManager.load fs name fas).hasAccount fd.account.id)
    simpa using updateCreate_fold_calls env fas (BudgetManager.load fs name fas)
      (BudgetManager.load fs name fas) [] [] (by simp) hpres hnodup (by simp)
  · obtain ⟨rest, calls, hrest, _, _⟩ := updateCreate_fold_frame env fas
      (BudgetManager.load fs name fas, [])
    exact ⟨rest, hrest⟩

/-- Concrete data for the C8 witness: a mapping that already knows source
account `"f1"` (destination `"A1"`), and a current source list with `"f1"`
plus a new account `"f2"`. -/
def updFasW : List FintocPair :=
  [⟨⟨some "f1", some "Cuenta", some "checking_account", some 12, some "CLP"⟩,
     some ⟨some "Banco"⟩⟩,
   ⟨⟨some "f2", some "Nueva", some "savings_account", some 5, some "CLP"⟩,
     some ⟨some "Banco"⟩⟩]

def updFsW : FileState :=
  FileState.content ⟨some "B",
    some [⟨some "f1", some "Cuenta", some "checking_account", some 10, some "CLP",
      some "A1", some "Banco"⟩]⟩

def updEnvW : Env :=
  ⟨true, fun _ => some "A2", fun _ => [], fun _ => true⟩

/-- Witness for C8: with 1 previously mapped account and 2 current source
accounts, exactly the 1 new account is passed to `createAccount`, and the
known account keeps destination id `"A1"`. -/
theorem c8_update_creates_exactly_new_witness :
    (∃ r, updateExistingBudget updEnvW updFsW "B" updFasW = some r ∧
      r.createCalls = updFasW.filter
        (fun fd => ! (BudgetManager.load updFsW "B" updFasW).hasAccount fd.account.id) ∧
      ∃ rest, r.manager.accounts
        = (BudgetManager.load updFsW "B" updFasW).accounts ++ rest) ∧
    (updFasW.filter
        (fun fd => ! (BudgetManager.load updFsW "B" updFasW).hasAccount fd.account.id)).length
      = 1 ∧
    (BudgetManager.load updFsW "B" updFasW).accounts.map Account.actualId = [some "A1"] :=
  ⟨c8_update_creates_exactly_new updEnvW updFsW "B" updFasW rfl (by decide) (by decide),
   by decide, by decide⟩

/-! ## Claim C9: per-account failures are isolated and the mapping persists -/

/-- Claim C9: neither path aborts on a per-account failure.  On the UPDATE
path the run always completes (given the budget loads), the persisted
document is exactly the final mapping, the loaded accounts survive as a
prefix, and the final mapping is unaffected by movement-fetch or
transaction-submission outcomes (only failed `createAccount` calls can
change it — by dropping just that account).  On the CREATE path, an account
ends up in the final (persisted) mapping exactly when its own
`createAccount` call succeeds, regardless of every other account's outcome,
and the success counter counts exactly those. -/
theorem c9_per_account_failure_isolation (env env' : Env) (fs : FileState)
    (name : String) (fas : List FintocPair)
    (h1 : env.loadBudgetOk = true) (h2 : env'.loadBudgetOk = true)
    (hc : ∀ fd, env.createResult fd = env'.createResult fd) :
    (∃ r r', updateExistingBudget env fs name fas = some r ∧
      updateExistingBudget env' fs name fas = some r' ∧
      r.manager = r'.manager ∧ r.savedDoc = r'.savedDoc ∧
      r.savedDoc = r.manager.saveDoc ∧
      ∃ rest, r.manager.accounts
        = (BudgetManager.load fs name fas).accounts ++ rest) ∧
    ((createNewBudget env name fas).savedDoc
        = (createNewBudget env name fas).manager.saveDoc ∧
      (createNewBudget env name fas).manager.accounts
        = (fas.filter (fun fd => (env.createResult fd).isSome)).map
            (fun fd => { Account.fromFintocData fd with actualId := env.createResult fd }) ∧
      (createNewBudget env name fas).totalAccounts
        = (fas.filter (fun fd => (env.createResult fd).isSome)).length) := by
  constructor
  · unfold updateExistingBudget
    rw [if_pos h1, if_pos h2]
    refine ⟨_, _, rfl, rfl, ?_, ?_, rfl, ?_⟩
    · show (fas.foldl (updateCreateStep env) (BudgetManager.load fs name fas, [])).1
          = (fas.foldl (updateCreateStep env') (BudgetManager.load fs name fas, [])).1
      rw [updateCreateStep_congr env env' hc]
    · show (fas.foldl (updateCreateStep env) (BudgetManager.load fs name fas, [])).1.saveDoc
          = (fas.foldl (updateCreateStep env') (BudgetManager.load fs name fas, [])).1.saveDoc
      rw [updateCreateStep_congr env env' hc]
    · obtain ⟨rest, calls, hrest, _, _⟩ := updateCreate_fold_frame env fas
        (BudgetManager.load fs name fas, [])
      exact ⟨rest, hrest⟩
  · refine ⟨rfl, ?_, ?_⟩
    · have h := (createStep_fold_accounts env fas
        { manager := { budgetName := name, accounts := [] },
          savedDoc := { budgetName := none, accounts := none },
          totalAccounts := 0, totalTransactions := 0, submitCalls := [] }).1
      simpa [createNewBudget] using h
    · have h := (createStep_fold_accounts env fas
        { manager := { budgetName := name, accounts := [] },
          savedDoc := { budgetName := none, accounts := none },
          totalAccounts := 0, totalTransactions := 0, submitCalls := [] }).2
      simpa [createNewBudget] using h

/-- Concrete data for the C9 witness: two source accounts; `createAccount`
fails for `"f2"`; the primed environment differs only in submissions
succeeding. -/
def isoFasW : List FintocPair :=
  [⟨⟨some "f1", some "Uno", some "checking_account", some 1, some "CLP"⟩, none⟩,
   ⟨⟨some "f2", some "Dos", some "credit_card", some 2, some "CLP"⟩, none⟩]

def isoEnvW : Env :=
  ⟨true, fun fd => if fd.account.id = some "f1" then some "A1" else none,
   fun _ => [], fun _ => false⟩

def isoEnvW' : Env :=
  ⟨true, fun fd => if fd.account.id = some "f1" then some "A1" else none,
   fun _ => [⟨some "m1", some "2024-01-01", some 1, some "x"⟩], fun _ => true⟩

/-- Witness for C9: with `"f2"`'s creation failing and every submission
failing, the run still completes, persists the mapping, and `"f1"` is still
created and counted; the mapping equals the one from the all-successful
submission environment. -/
theorem c9_per_account_failure_isolation_witness :
    (∃ r r', updateExistingBudget isoEnvW FileState.missing "B" isoFasW = some r ∧
      updateExistingBudget isoEnvW' FileState.missing "B" isoFasW = some r' ∧
      r.manager = r'.manager ∧ r.savedDoc = r'.savedDoc ∧
      r.savedDoc = r.manager.saveDoc ∧
      ∃ rest, r.manager.accounts
        = (BudgetManager.load FileState.missing "B" isoFasW).accounts ++ rest) ∧
    ((createNewBudget isoEnvW "B" isoFasW).savedDoc
        = (createNewBudget isoEnvW "B" isoFasW).manager.saveDoc ∧
      (createNewBudget isoEnvW "B" isoFasW).manager.accounts
        = (isoFasW.filter (fun fd => (isoEnvW.createResult fd).isSome)).map
            (fun fd => { Account.fromFintocData fd with
                         actualId := isoEnvW.createResult fd }) ∧
      (createNewBudget isoEnvW "B" isoFasW).totalAccounts
        = (isoFasW.filter (fun fd => (isoEnvW.createResult fd).isSome)).length) ∧
    (isoFasW.filter (fun fd => (isoEnvW.createResult fd).isSome)).length = 1 :=
  ⟨(c9_per_account_failure_isolation isoEnvW isoEnvW' FileState.missing "B" isoFasW
      rfl rfl (fun _ => rfl)).1,
   (c9_per_account_failure_isolation isoEnvW isoEnvW' FileState.missing "B" isoFasW
      rfl rfl (fun _ => rfl)).2,
   by decide⟩

/-! ## Claim C10: accessor totality and defaults -/

/-- Claim C10: every `Account` accessor is total with fixed defaults — a
missing record or field yields `""` for `id`/`name`/`type`/`currency`, `0`
for `balance`, `"Unknown"` for `institutionName` — and `toJSON` and
`getActualAccountType` are total on every account: `toJSON` is exactly the
record of accessor values, and `getActualAccountType` always yields one of
the four destination kinds. -/
theorem c10_accessors_total (a : Account) :
    (a.fintoc = none →
      a.id = "" ∧ a.name = "" ∧ a.type = "" ∧ a.balance = 0 ∧ a.currency = "") ∧
    (∀ f, a.fintoc = some f →
      (f.id = none → a.id = "") ∧
      (f.name = none → a.name = "") ∧
      (f.type = none → a.type = "") ∧
      (f.balance = none → a.balance = 0) ∧
      (f.currency = none → a.currency = "")) ∧
    (a.institution = none → a.institutionName = "Unknown") ∧
    (∀ i, a.institution = some i → i.name = none → a.institutionName = "Unknown") ∧
    a.toJSON = { fintocId := some a.id, name := some a.name, type := some a.type,
                 balance := some a.balance, currency := some a.currency,
                 actualId := a.actualId, institutionName := some a.institutionName } ∧
    a.getActualAccountType ∈ ["checking", "savings", "credit", "other"] := by
  refine ⟨?_, ?_, ?_, ?_, rfl, ?_⟩
  · intro h
    simp [Account.id, Account.name, Account.type, Account.balance, Account.currency,
      jsOr, jsOrQ, h]
  · intro f hf
    refine ⟨?_, ?_, ?_, ?_, ?_⟩ <;> intro h <;>
      simp [Account.id, Account.name, Account.type, Account.balance, Account.currency,
        jsOr, jsOrQ, hf, h]
  · intro h
    simp [Account.institutionName, jsOr, h]
  · intro i hi h
    simp [Account.institutionName, jsOr, hi, h]
  · unfold Account.getActualAccountType typeMap
    split_ifs <;> simp

/-- Witness for C10 at the degenerate account with no record, no
institution and no Actual id. -/
theorem c10_accessors_total_witness :
    Account.id ⟨none, none, none⟩ = "" ∧
    Account.balance ⟨none, none, none⟩ = 0 ∧
    Account.institutionName ⟨none, none, none⟩ = "Unknown" ∧
    Account.getActualAccountType ⟨none, none, none⟩ ∈
      ["checking", "savings", "credit", "other"] :=
  ⟨((c10_accessors_total ⟨none, none, none⟩).1 rfl).1,
   ((c10_accessors_total ⟨none, none, none⟩).1 rfl).2.2.2.1,
   (c10_accessors_total ⟨none, none, none⟩).2.2.1 rfl,
   (c10_accessors_total ⟨none, none, none⟩).2.2.2.2.2⟩

end FintocActual
